import Mathlib

set_option maxRecDepth 100000

/-!
# mobile-use: control loop and action-translation layer, shallowly embedded

This file embeds the core of the `mobile-use` repository in Lean 4:

* `TaskExecutor.execute` / `TaskExecutor.executeAction` / `TaskExecutor.formatAction`
  (file `src/executor.ts`, given as `src/unnamed/part_000`),
* `TaskAgent.detectStuckPattern` (file `src/agent.ts`, given as `src/unnamed/part_001`),
* the relevant pieces of `MaestroClient` (`src/maestro.ts`).

The decision oracle and the automation backend are external collaborators; they
are modelled as an environment `Env` providing, for each value of the step
counter, the outcome of the screen capture, of the oracle call, and the
success/failure of each backend primitive.  The loop itself is translated
statement by statement from the TypeScript source; `RunResult` extends the
ExecutionResult of the source with observational instrumentation (the history
list, the trace of backend calls, the sleep durations, failure counters and
the exit kind) so that properties about them can be stated.
-/

namespace MobileUse

/-- The parameter bag of a decision (`AgentParams` in `src/types.ts`):
every key is optional. -/
structure AgentParams where
  x : Option Int := none
  y : Option Int := none
  text : Option String := none
  startX : Option Int := none
  startY : Option Int := none
  endX : Option Int := none
  endY : Option Int := none
  key : Option String := none
  url : Option String := none
  chars : Option Int := none
  timeout : Option Int := none
  appId : Option String := none
deriving DecidableEq, Repr

/-- One oracle decision (`AgentDecision` in `src/types.ts`).  The `action`
field is kept as a string, as in the JSON the oracle produces; `params` is
optional. -/
structure AgentDecision where
  action : String
  params : Option AgentParams
  reasoning : String
  progress : Int
deriving DecidableEq, Repr

/-- JavaScript truthiness of an optional string: `undefined` and the empty
string are falsy (used for `!!this.bundleId`, `if (params.text)`,
`if (params.appId)`). -/
def truthy : Option String → Bool
  | none => false
  | some s => !s.isEmpty

/-- A primitive call issued to the automation backend (`MaestroClient`).
`MaestroClient.iosBackGesture` (src/maestro.ts) issues the flow
`- swipe: start "1%, 50%" end "80%, 50%"`, i.e. exactly the same backend
primitive as `swipe 1 50 80 50`, so it is recorded as that swipe. -/
inductive BackendCall where
  | launch
  | screenshot
  | tap (x y : Int)
  | tapText (text : String)
  | doubleTap (x y : Int)
  | longPress (x y : Int)
  | longPressText (text : String)
  | inputText (text : String)
  | eraseText (chars : Int)
  | scroll
  | swipe (startX startY endX endY : Int)
  | back
  | hideKeyboard
  | openLink (url : String)
  | pressKey (key : String)
  | waitForAnimation (timeout : Int)
  | launchApp (appId : String)
  | stopApp (appId : String)
deriving DecidableEq, BEq, Repr

/-- The gesture issued by `MaestroClient.iosBackGesture` (src/maestro.ts,
lines 245-248): a swipe from the left screen edge `"1%, 50%"` to
`"80%, 50%"`. -/
def iosBackGestureCall : BackendCall := .swipe 1 50 80 50

/-- Issue one backend call; the environment (`backend`) says whether it
succeeds.  Returns the calls issued and the success flag («no exception»). -/
def call1 (c : BackendCall) (backend : BackendCall → Bool) :
    List BackendCall × Bool :=
  ([c], backend c)

/-- Embedding of `TaskExecutor.executeAction` (src/executor.ts lines 153-233): the switch
over `decision.action`, with `const params = decision.params || {}` and the
`??` defaults of the source.  The returned list is the sequence of backend
calls issued; the Bool is `false` exactly when the TypeScript method would
throw. -/
def executeAction (decision : AgentDecision) (backend : BackendCall → Bool) :
    List BackendCall × Bool :=
  let params := decision.params.getD {}
  if decision.action = "tap" then
    call1 (.tap (params.x.getD 50) (params.y.getD 50)) backend
  else if decision.action = "tapText" then
    call1 (.tapText (params.text.getD "")) backend
  else if decision.action = "doubleTap" then
    call1 (.doubleTap (params.x.getD 50) (params.y.getD 50)) backend
  else if decision.action = "longPress" then
    if truthy params.text then
      call1 (.longPressText (params.text.getD "")) backend
    else
      call1 (.longPress (params.x.getD 50) (params.y.getD 50)) backend
  else if decision.action = "inputText" then
    call1 (.inputText (params.text.getD "")) backend
  else if decision.action = "eraseText" then
    call1 (.eraseText (params.chars.getD 50)) backend
  else if decision.action = "scroll" then
    call1 .scroll backend
  else if decision.action = "swipe" then
    call1 (.swipe (params.startX.getD 50) (params.startY.getD 50)
      (params.endX.getD 50) (params.endY.getD 20)) backend
  else if decision.action = "back" then
    if backend .back then ([.back], true)
    else ([.back, iosBackGestureCall], backend iosBackGestureCall)
  else if decision.action = "hideKeyboard" then
    call1 .hideKeyboard backend
  else if decision.action = "openLink" then
    call1 (.openLink (params.url.getD "")) backend
  else if decision.action = "pressKey" then
    call1 (.pressKey (params.key.getD "enter")) backend
  else if decision.action = "wait" then
    call1 (.waitForAnimation (params.timeout.getD 3000)) backend
  else if decision.action = "launchApp" then
    if truthy params.appId then call1 (.launchApp (params.appId.getD "")) backend
    else ([], true)
  else if decision.action = "stopApp" then
    if truthy params.appId then call1 (.stopApp (params.appId.getD "")) backend
    else ([], true)
  else
    ([], true)

/-- The 15 action kinds handled by the switch in `executeAction`; anything else
falls into the `default:` branch. -/
def recognizedActions : List String :=
  ["tap", "tapText", "doubleTap", "longPress", "inputText", "eraseText",
   "scroll", "swipe", "back", "hideKeyboard", "openLink", "pressKey",
   "wait", "launchApp", "stopApp"]

/-- JavaScript template rendering of a possibly-undefined number. -/
def fmtNum : Option Int → String
  | some n => toString n
  | none => "undefined"

/-- JavaScript rendering of `params.text?.slice(0, 20)` inside a template
(`slice(0, 20)` keeps the first 20 characters). -/
def fmtTextSlice : Option String → String
  | some t => String.mk (t.data.take 20)
  | none => "undefined"

/-- JavaScript rendering of `${params.appId}`. -/
def fmtStr : Option String → String
  | some s => s
  | none => "undefined"

/-- Embedding of `TaskExecutor.formatAction` (src/executor.ts lines 235-255): the history
summary of an executed decision.  `if (!params) return decision.action;` then
a switch over the action kind. -/
def formatAction (decision : AgentDecision) : String :=
  match decision.params with
  | none => decision.action
  | some params =>
    if decision.action = "tap" ∨ decision.action = "doubleTap" ∨
        decision.action = "longPress" then
      decision.action ++ "(" ++ fmtNum params.x ++ "," ++ fmtNum params.y ++ ")"
    else if decision.action = "tapText" ∨ decision.action = "inputText" then
      decision.action ++ "(\"" ++ fmtTextSlice params.text ++ "\")"
    else if decision.action = "swipe" then
      "swipe(" ++ fmtNum params.startX ++ "," ++ fmtNum params.startY ++ "->" ++
        fmtNum params.endX ++ "," ++ fmtNum params.endY ++ ")"
    else if decision.action = "launchApp" ∨ decision.action = "stopApp" then
      decision.action ++ "(\"" ++ fmtStr params.appId ++ "\")"
    else
      decision.action

/-- The strong stuck hint of `TaskAgent.detectStuckPattern`
(src/agent.ts lines 72-76), naming the repeated action. -/
def stuckWarning (a : String) : String :=
  "WARNING: You\x27ve tried \"" ++ a ++
    "\" 3 times with no progress. The tap coordinates may be WRONG. Try:\n" ++
    "1. DIFFERENT coordinates (shift by 5-10%)\n" ++
    "2. tapText instead of tap (if there\x27s visible text)\n" ++
    "3. scroll to reveal hidden elements\n" ++
    "4. A completely different approach"

/-- The milder tap-adjustment hint of `TaskAgent.detectStuckPattern`
(src/agent.ts line 81). -/
def tapNote : String :=
  "NOTE: Multiple tap attempts detected. If tapping isn\x27t working, the " ++
    "button might be at different coordinates than expected. Try adjusting " ++
    "by 5-10% or use tapText if visible text exists."

/-- JavaScript `a.startsWith(p)`, expressed on the character lists so that it
evaluates by kernel reduction. -/
def strStartsWith (a p : String) : Bool :=
  p.data.isPrefixOf a.data

/-- Embedding of `TaskAgent.detectStuckPattern` (src/agent.ts lines 65-85): a pure
function of the trailing 3 history entries.  `history.slice(-3)` is
`history.drop (history.length - 3)` when the length is at least 3. -/
def detectStuckPattern (history : List String) : Option String :=
  if history.length < 3 then none
  else
    let lastThree := history.drop (history.length - 3)
    let first := lastThree.headD ""
    if lastThree.all (fun a => a = first) then
      some (stuckWarning first)
    else if 2 ≤ (lastThree.filter (fun a => strStartsWith a "tap(")).length then
      some tapNote
    else
      none

/-- Substring test over the underlying character lists (used to state that a
hint mentions a given fragment). -/
def strContains (s pat : String) : Bool :=
  (List.range (s.data.length + 1)).any fun i => pat.data.isPrefixOf (s.data.drop i)

/-- The configuration fields of `TaskConfig` (src/types.ts) that the control
loop reads. -/
structure TaskConfig where
  bundleId : Option String
  task : String
  maxSteps : Nat
deriving DecidableEq, Repr

/-- What the environment does at one loop iteration: the screen capture
throws, the oracle call throws, or the oracle returns a decision. -/
inductive StepOutcome where
  | captureFail
  | decideFail
  | decided (d : AgentDecision)
deriving DecidableEq, Repr

/-- The external collaborators of one run: whether the initial app launch
succeeds (and its error message when it does not), the per-step-counter
capture/oracle outcome, and the per-step-counter success of each backend
primitive. -/
structure Env where
  launchOk : Bool
  launchErrMsg : String
  outcome : Nat → StepOutcome
  backend : Nat → BackendCall → Bool

/-- Whether an iteration outcome is a terminal decision (`done` or
`failed`). -/
def isTerminal : StepOutcome → Bool
  | .decided d => d.action == "done" || d.action == "failed"
  | _ => false

/-- How a run ended (instrumentation; the source only returns
`ExecutionResult`). -/
inductive ExitKind where
  | launchFailed
  | doneDecision
  | failedDecision
  | timeout
deriving DecidableEq, Repr

/-- The fixed timeout reason of the source (src/executor.ts line 150). -/
def timeoutReason : String := "Timeout - max steps exceeded"

/-- The outcome of a run: the fields of the source type `ExecutionResult`
(`success`, `reason`, `steps`) plus observational instrumentation: the final
`actionHistory`, the trace of backend calls, the `sleep` durations performed,
the numbers of capture and oracle failures, and the exit kind. -/
structure RunResult where
  success : Bool
  reason : String
  steps : Nat
  history : List String
  calls : List BackendCall
  sleeps : List Nat
  captureFails : Nat
  decideFails : Nat
  exitKind : ExitKind
deriving DecidableEq, Repr

/-- The `while (steps < this.config.maxSteps)` loop of `TaskExecutor.execute`
(src/executor.ts lines 77-150), with the guard encoded as the fuel
`maxSteps - steps` (each iteration does `steps++`, so the guard fails exactly
when the fuel reaches 0).  Iteration body, in source order: increment the
counter; `maestro.screenshot` (on throw: warn, `sleep(2000)`, `continue`);
`agent.decide` (on throw: warn, `sleep(2000)`, `continue`); return on a
`done` or `failed` decision; otherwise `executeAction` and push
`formatAction decision` or, when it throws, `"error"`; `sleep(1500)`. -/
def execLoop (cfg : TaskConfig) (env : Env) :
    Nat → Nat → List String → List BackendCall → List Nat → Nat → Nat → RunResult
  | 0, steps, history, calls, sleeps, capF, decF =>
    { success := false, reason := timeoutReason, steps := steps,
      history := history, calls := calls, sleeps := sleeps,
      captureFails := capF, decideFails := decF, exitKind := .timeout }
  | fuel + 1, steps, history, calls, sleeps, capF, decF =>
    match env.outcome (steps + 1) with
    | .captureFail =>
      execLoop cfg env fuel (steps + 1) history (calls ++ [.screenshot])
        (sleeps ++ [2000]) (capF + 1) decF
    | .decideFail =>
      execLoop cfg env fuel (steps + 1) history (calls ++ [.screenshot])
        (sleeps ++ [2000]) capF (decF + 1)
    | .decided d =>
      if d.action = "done" then
        { success := true, reason := d.reasoning, steps := steps + 1,
          history := history, calls := calls ++ [.screenshot], sleeps := sleeps,
          captureFails := capF, decideFails := decF, exitKind := .doneDecision }
      else if d.action = "failed" then
        { success := false, reason := d.reasoning, steps := steps + 1,
          history := history, calls := calls ++ [.screenshot], sleeps := sleeps,
          captureFails := capF, decideFails := decF, exitKind := .failedDecision }
      else
        let res := executeAction d (env.backend (steps + 1))
        execLoop cfg env fuel (steps + 1)
          (history ++ [if res.2 then formatAction d else "error"])
          (calls ++ [.screenshot] ++ res.1) (sleeps ++ [1500]) capF decF

/-- Embedding of `TaskExecutor.execute` (src/executor.ts lines 39-151).  Init phase:
when `maestro.hasBundleId()` (i.e. `!!bundleId`), launch the app — on throw
return `{success: false, reason: err.message, steps: 0}`; on success push
`"launched"` and `sleep(3000)`.  Otherwise push `"ready"` and `sleep(1000)`.
Then run the step loop from `steps = 0`. -/
def execute (cfg : TaskConfig) (env : Env) : RunResult :=
  if truthy cfg.bundleId then
    if env.launchOk then
      execLoop cfg env cfg.maxSteps 0 ["launched"] [.launch] [3000] 0 0
    else
      { success := false, reason := env.launchErrMsg, steps := 0,
        history := [], calls := [.launch], sleeps := [],
        captureFails := 0, decideFails := 0, exitKind := .launchFailed }
  else
    execLoop cfg env cfg.maxSteps 0 ["ready"] [] [1000] 0 0

/-! ## Helper lemmas about the loop -/

/-- The final counter is bounded by the entry counter plus the fuel
(the loop guard). -/
theorem execLoop_steps_le (cfg : TaskConfig) (env : Env) :
    ∀ fuel steps history calls sleeps capF decF,
      (execLoop cfg env fuel steps history calls sleeps capF decF).steps ≤ steps + fuel := by
  intro fuel
  induction fuel with
  | zero =>
    intro steps h c s cf df
    simp [execLoop]
  | succ n ih =>
    intro steps h c s cf df
    cases ho : env.outcome (steps + 1) with
    | captureFail =>
      simp only [execLoop, ho]
      have := ih (steps + 1) h (c ++ [.screenshot]) (s ++ [2000]) (cf + 1) df
      omega
    | decideFail =>
      simp only [execLoop, ho]
      have := ih (steps + 1) h (c ++ [.screenshot]) (s ++ [2000]) cf (df + 1)
      omega
    | decided d =>
      simp only [execLoop, ho]
      by_cases hd : d.action = "done"
      · simp [hd]
      · by_cases hf : d.action = "failed"
        · simp [hd, hf]
        · simp only [hd, hf, if_false]
          have := ih (steps + 1)
            (h ++ [if (executeAction d (env.backend (steps + 1))).2 then formatAction d else "error"])
            (c ++ [.screenshot] ++ (executeAction d (env.backend (steps + 1))).1)
            (s ++ [1500]) cf df
          omega

/-- The counter never decreases. -/
theorem execLoop_steps_ge (cfg : TaskConfig) (env : Env) :
    ∀ fuel steps history calls sleeps capF decF,
      steps ≤ (execLoop cfg env fuel steps history calls sleeps capF decF).steps := by
  intro fuel
  induction fuel with
  | zero =>
    intro steps h c s cf df
    simp [execLoop]
  | succ n ih =>
    intro steps h c s cf df
    cases ho : env.outcome (steps + 1) with
    | captureFail =>
      simp only [execLoop, ho]
      have := ih (steps + 1) h (c ++ [.screenshot]) (s ++ [2000]) (cf + 1) df
      omega
    | decideFail =>
      simp only [execLoop, ho]
      have := ih (steps + 1) h (c ++ [.screenshot]) (s ++ [2000]) cf (df + 1)
      omega
    | decided d =>
      simp only [execLoop, ho]
      by_cases hd : d.action = "done"
      · simp [hd]
      · by_cases hf : d.action = "failed"
        · simp [hd, hf]
        · simp only [hd, hf, if_false]
          have := ih (steps + 1)
            (h ++ [if (executeAction d (env.backend (steps + 1))).2 then formatAction d else "error"])
            (c ++ [.screenshot] ++ (executeAction d (env.backend (steps + 1))).1)
            (s ++ [1500]) cf df
          omega

/-- With at least one unit of fuel, the counter strictly increases: every
loop iteration performs `steps++` exactly once. -/
theorem execLoop_steps_pos (cfg : TaskConfig) (env : Env)
    (fuel steps : Nat) (history : List String) (calls : List BackendCall)
    (sleeps : List Nat) (capF decF : Nat) (hfuel : 0 < fuel) :
    steps < (execLoop cfg env fuel steps history calls sleeps capF decF).steps := by
  cases fuel with
  | zero => omega
  | succ n =>
    cases ho : env.outcome (steps + 1) with
    | captureFail =>
      simp only [execLoop, ho]
      have := execLoop_steps_ge cfg env n (steps + 1) history (calls ++ [.screenshot])
        (sleeps ++ [2000]) (capF + 1) decF
      omega
    | decideFail =>
      simp only [execLoop, ho]
      have := execLoop_steps_ge cfg env n (steps + 1) history (calls ++ [.screenshot])
        (sleeps ++ [2000]) capF (decF + 1)
      omega
    | decided d =>
      simp only [execLoop, ho]
      by_cases hd : d.action = "done"
      · simp [hd]
      · by_cases hf : d.action = "failed"
        · simp [hd, hf]
        · simp only [hd, hf, if_false]
          have := execLoop_steps_ge cfg env n (steps + 1)
            (history ++ [if (executeAction d (env.backend (steps + 1))).2 then formatAction d else "error"])
            (calls ++ [.screenshot] ++ (executeAction d (env.backend (steps + 1))).1)
            (sleeps ++ [1500]) capF decF
          omega

/-- A timeout exit has `success = false`, the fixed reason, and a counter
equal to entry counter plus fuel (i.e. the budget was fully consumed). -/
theorem execLoop_timeout_char (cfg : TaskConfig) (env : Env) :
    ∀ fuel steps history calls sleeps capF decF,
      (execLoop cfg env fuel steps history calls sleeps capF decF).exitKind = .timeout →
      (execLoop cfg env fuel steps history calls sleeps capF decF).success = false ∧
      (execLoop cfg env fuel steps history calls sleeps capF decF).reason = timeoutReason ∧
      (execLoop cfg env fuel steps history calls sleeps capF decF).steps = steps + fuel := by
  intro fuel
  induction fuel with
  | zero =>
    intro steps h c s cf df _
    simp [execLoop]
  | succ n ih =>
    intro steps h c s cf df hex
    cases ho : env.outcome (steps + 1) with
    | captureFail =>
      simp only [execLoop, ho] at hex ⊢
      obtain ⟨h1, h2, h3⟩ := ih (steps + 1) h (c ++ [.screenshot]) (s ++ [2000]) (cf + 1) df hex
      exact ⟨h1, h2, by omega⟩
    | decideFail =>
      simp only [execLoop, ho] at hex ⊢
      obtain ⟨h1, h2, h3⟩ := ih (steps + 1) h (c ++ [.screenshot]) (s ++ [2000]) cf (df + 1) hex
      exact ⟨h1, h2, by omega⟩
    | decided d =>
      simp only [execLoop, ho] at hex ⊢
      by_cases hd : d.action = "done"
      · simp [hd] at hex
      · by_cases hf : d.action = "failed"
        · simp [hd, hf] at hex
        · simp only [hd, hf, if_false] at hex ⊢
          obtain ⟨h1, h2, h3⟩ := ih (steps + 1)
            (h ++ [if (executeAction d (env.backend (steps + 1))).2 then formatAction d else "error"])
            (c ++ [.screenshot] ++ (executeAction d (env.backend (steps + 1))).1)
            (s ++ [1500]) cf df hex
          exact ⟨h1, h2, by omega⟩

/-- The loop never reports a launch failure: that exit exists only in the
Init phase. -/
theorem execLoop_ne_launchFailed (cfg : TaskConfig) (env : Env) :
    ∀ fuel steps history calls sleeps capF decF,
      (execLoop cfg env fuel steps history calls sleeps capF decF).exitKind ≠ .launchFailed := by
  intro fuel
  induction fuel with
  | zero =>
    intro steps h c s cf df
    simp [execLoop]
  | succ n ih =>
    intro steps h c s cf df
    cases ho : env.outcome (steps + 1) with
    | captureFail =>
      simp only [execLoop, ho]
      exact ih (steps + 1) h (c ++ [.screenshot]) (s ++ [2000]) (cf + 1) df
    | decideFail =>
      simp only [execLoop, ho]
      exact ih (steps + 1) h (c ++ [.screenshot]) (s ++ [2000]) cf (df + 1)
    | decided d =>
      simp only [execLoop, ho]
      by_cases hd : d.action = "done"
      · simp [hd]
      · by_cases hf : d.action = "failed"
        · simp [hd, hf]
        · simp only [hd, hf, if_false]
          exact ih (steps + 1)
            (h ++ [if (executeAction d (env.backend (steps + 1))).2 then formatAction d else "error"])
            (c ++ [.screenshot] ++ (executeAction d (env.backend (steps + 1))).1)
            (s ++ [1500]) cf df

/-- If no iteration within the remaining budget produces a terminal
decision, the loop exits by timeout. -/
theorem execLoop_all_nonterminal (cfg : TaskConfig) (env : Env) :
    ∀ fuel steps history calls sleeps capF decF,
      (∀ j, steps < j → j ≤ steps + fuel → isTerminal (env.outcome j) = false) →
      (execLoop cfg env fuel steps history calls sleeps capF decF).exitKind = .timeout := by
  intro fuel
  induction fuel with
  | zero =>
    intro steps h c s cf df _
    simp [execLoop]
  | succ n ih =>
    intro steps h c s cf df hnt
    have hnt1 : isTerminal (env.outcome (steps + 1)) = false :=
      hnt (steps + 1) (by omega) (by omega)
    cases ho : env.outcome (steps + 1) with
    | captureFail =>
      simp only [execLoop, ho]
      exact ih (steps + 1) h (c ++ [.screenshot]) (s ++ [2000]) (cf + 1) df
        (fun j hj1 hj2 => hnt j (by omega) (by omega))
    | decideFail =>
      simp only [execLoop, ho]
      exact ih (steps + 1) h (c ++ [.screenshot]) (s ++ [2000]) cf (df + 1)
        (fun j hj1 hj2 => hnt j (by omega) (by omega))
    | decided d =>
      rw [ho] at hnt1
      simp only [isTerminal, Bool.or_eq_false_iff, beq_eq_false_iff_ne, ne_eq] at hnt1
      simp only [execLoop, ho, if_neg hnt1.1, if_neg hnt1.2]
      exact ih (steps + 1)
        (h ++ [if (executeAction d (env.backend (steps + 1))).2 then formatAction d else "error"])
        (c ++ [.screenshot] ++ (executeAction d (env.backend (steps + 1))).1)
        (s ++ [1500]) cf df
        (fun j hj1 hj2 => hnt j (by omega) (by omega))

/-- If the first terminal decision within the budget arrives at counter value
`t`, the loop stops with exactly `steps = t`: the counter advanced by exactly
one per iteration up to and including the terminal one. -/
theorem execLoop_first_terminal (cfg : TaskConfig) (env : Env) :
    ∀ fuel steps history calls sleeps capF decF t,
      steps < t → t ≤ steps + fuel →
      (∀ j, steps < j → j < t → isTerminal (env.outcome j) = false) →
      isTerminal (env.outcome t) = true →
      (execLoop cfg env fuel steps history calls sleeps capF decF).steps = t := by
  intro fuel
  induction fuel with
  | zero =>
    intro steps h c s cf df t h1 h2 _ _
    omega
  | succ n ih =>
    intro steps h c s cf df t h1 h2 hnt ht
    rcases Nat.lt_or_ge (steps + 1) t with hlt | hge
    · have hnt1 : isTerminal (env.outcome (steps + 1)) = false :=
        hnt (steps + 1) (by omega) hlt
      cases ho : env.outcome (steps + 1) with
      | captureFail =>
        simp only [execLoop, ho]
        exact ih (steps + 1) h (c ++ [.screenshot]) (s ++ [2000]) (cf + 1) df t
          (by omega) (by omega) (fun j hj1 hj2 => hnt j (by omega) hj2) ht
      | decideFail =>
        simp only [execLoop, ho]
        exact ih (steps + 1) h (c ++ [.screenshot]) (s ++ [2000]) cf (df + 1) t
          (by omega) (by omega) (fun j hj1 hj2 => hnt j (by omega) hj2) ht
      | decided d =>
        rw [ho] at hnt1
        simp only [isTerminal, Bool.or_eq_false_iff, beq_eq_false_iff_ne, ne_eq] at hnt1
        simp only [execLoop, ho, if_neg hnt1.1, if_neg hnt1.2]
        exact ih (steps + 1)
          (h ++ [if (executeAction d (env.backend (steps + 1))).2 then formatAction d else "error"])
          (c ++ [.screenshot] ++ (executeAction d (env.backend (steps + 1))).1)
          (s ++ [1500]) cf df t
          (by omega) (by omega) (fun j hj1 hj2 => hnt j (by omega) hj2) ht
    · have heq : t = steps + 1 := by omega
      subst heq
      cases ho : env.outcome (steps + 1) with
      | captureFail =>
        rw [ho] at ht
        simp [isTerminal] at ht
      | decideFail =>
        rw [ho] at ht
        simp [isTerminal] at ht
      | decided d =>
        rw [ho] at ht
        simp only [isTerminal, Bool.or_eq_true, beq_iff_eq] at ht
        simp only [execLoop, ho]
        rcases ht with hd | hf
        · simp [hd]
        · by_cases hdd : d.action = "done"
          · simp [hdd]
          · simp [hdd, hf]

/-- History accounting: on a timeout exit every counted step is either a
history entry or a capture/decision failure; on a terminal-decision exit the
final iteration consumed a step without appending an entry. -/
theorem execLoop_history_acct (cfg : TaskConfig) (env : Env) :
    ∀ fuel steps history calls sleeps capF decF,
      ((execLoop cfg env fuel steps history calls sleeps capF decF).exitKind = .timeout →
        (execLoop cfg env fuel steps history calls sleeps capF decF).history.length +
          (execLoop cfg env fuel steps history calls sleeps capF decF).captureFails +
          (execLoop cfg env fuel steps history calls sleeps capF decF).decideFails + steps =
        history.length + capF + decF +
          (execLoop cfg env fuel steps history calls sleeps capF decF).steps) ∧
      (((execLoop cfg env fuel steps history calls sleeps capF decF).exitKind = .doneDecision ∨
        (execLoop cfg env fuel steps history calls sleeps capF decF).exitKind = .failedDecision) →
        (execLoop cfg env fuel steps history calls sleeps capF decF).history.length +
          (execLoop cfg env fuel steps history calls sleeps capF decF).captureFails +
          (execLoop cfg env fuel steps history calls sleeps capF decF).decideFails + steps + 1 =
        history.length + capF + decF +
          (execLoop cfg env fuel steps history calls sleeps capF decF).steps) := by
  intro fuel
  induction fuel with
  | zero =>
    intro steps h c s cf df
    constructor
    · intro _
      simp [execLoop]
    · intro hex
      simp [execLoop] at hex
  | succ n ih =>
    intro steps h c s cf df
    cases ho : env.outcome (steps + 1) with
    | captureFail =>
      simp only [execLoop, ho]
      obtain ⟨iht, ihd⟩ := ih (steps + 1) h (c ++ [.screenshot]) (s ++ [2000]) (cf + 1) df
      exact ⟨fun hex => by have := iht hex; omega, fun hex => by have := ihd hex; omega⟩
    | decideFail =>
      simp only [execLoop, ho]
      obtain ⟨iht, ihd⟩ := ih (steps + 1) h (c ++ [.screenshot]) (s ++ [2000]) cf (df + 1)
      exact ⟨fun hex => by have := iht hex; omega, fun hex => by have := ihd hex; omega⟩
    | decided d =>
      simp only [execLoop, ho]
      by_cases hd : d.action = "done"
      · constructor
        · intro hex
          simp [hd] at hex
        · intro _
          simp [hd]
          omega
      · by_cases hf : d.action = "failed"
        · constructor
          · intro hex
            simp [hd, hf] at hex
          · intro _
            simp [hd, hf]
            omega
        · simp only [hd, hf, if_false]
          obtain ⟨iht, ihd⟩ := ih (steps + 1)
            (h ++ [if (executeAction d (env.backend (steps + 1))).2 then formatAction d else "error"])
            (c ++ [.screenshot] ++ (executeAction d (env.backend (steps + 1))).1)
            (s ++ [1500]) cf df
          constructor
          · intro hex
            have := iht hex
            simp only [List.length_append, List.length_cons, List.length_nil] at this
            omega
          · intro hex
            have := ihd hex
            simp only [List.length_append, List.length_cons, List.length_nil] at this
            omega

/-- The function `executeAction` reads only the `action` and `params` fields of the
decision: `reasoning` and `progress` are never consulted. -/
theorem executeAction_congr (a : String) (p : Option AgentParams)
    (r1 r2 : String) (g1 g2 : Int) (backend : BackendCall → Bool) :
    executeAction ⟨a, p, r1, g1⟩ backend = executeAction ⟨a, p, r2, g2⟩ backend := rfl

/-- The function `formatAction` reads only the `action` and `params` fields of the
decision. -/
theorem formatAction_congr (a : String) (p : Option AgentParams)
    (r1 r2 : String) (g1 g2 : Int) :
    formatAction ⟨a, p, r1, g1⟩ = formatAction ⟨a, p, r2, g2⟩ := rfl

/-- Two iteration outcomes that agree except possibly in the `reasoning` and
`progress` fields of a returned decision. -/
def outcomeEquiv : StepOutcome → StepOutcome → Prop
  | .decided d1, .decided d2 => d1.action = d2.action ∧ d1.params = d2.params
  | o1, o2 => o1 = o2

/-- Bisimulation: two environments whose oracle outputs differ only in
`reasoning`/`progress` (and whose backend behaves identically) drive the loop
through the same control flow: equal success flag, counter, history and
backend-call trace. -/
theorem execLoop_equiv (cfg : TaskConfig) (env1 env2 : Env)
    (ho : ∀ n, outcomeEquiv (env1.outcome n) (env2.outcome n))
    (hb : env1.backend = env2.backend) :
    ∀ fuel steps history calls sleeps capF decF,
      (execLoop cfg env1 fuel steps history calls sleeps capF decF).success =
        (execLoop cfg env2 fuel steps history calls sleeps capF decF).success ∧
      (execLoop cfg env1 fuel steps history calls sleeps capF decF).steps =
        (execLoop cfg env2 fuel steps history calls sleeps capF decF).steps ∧
      (execLoop cfg env1 fuel steps history calls sleeps capF decF).history =
        (execLoop cfg env2 fuel steps history calls sleeps capF decF).history ∧
      (execLoop cfg env1 fuel steps history calls sleeps capF decF).calls =
        (execLoop cfg env2 fuel steps history calls sleeps capF decF).calls := by
  intro fuel
  induction fuel with
  | zero =>
    intro steps h c s cf df
    simp [execLoop]
  | succ n ih =>
    intro steps h c s cf df
    have hon := ho (steps + 1)
    cases h1 : env1.outcome (steps + 1) with
    | captureFail =>
      rw [h1] at hon
      cases h2 : env2.outcome (steps + 1) with
      | captureFail =>
        simp only [execLoop, h1, h2]
        exact ih (steps + 1) h (c ++ [.screenshot]) (s ++ [2000]) (cf + 1) df
      | decideFail =>
        rw [h2] at hon
        simp [outcomeEquiv] at hon
      | decided d =>
        rw [h2] at hon
        simp [outcomeEquiv] at hon
    | decideFail =>
      rw [h1] at hon
      cases h2 : env2.outcome (steps + 1) with
      | captureFail =>
        rw [h2] at hon
        simp [outcomeEquiv] at hon
      | decideFail =>
        simp only [execLoop, h1, h2]
        exact ih (steps + 1) h (c ++ [.screenshot]) (s ++ [2000]) cf (df + 1)
      | decided d =>
        rw [h2] at hon
        simp [outcomeEquiv] at hon
    | decided d1 =>
      rw [h1] at hon
      cases h2 : env2.outcome (steps + 1) with
      | captureFail =>
        rw [h2] at hon
        simp [outcomeEquiv] at hon
      | decideFail =>
        rw [h2] at hon
        simp [outcomeEquiv] at hon
      | decided d2 =>
        rw [h2] at hon
        obtain ⟨a1, p1, r1, g1⟩ := d1
        obtain ⟨a2, p2, r2, g2⟩ := d2
        obtain ⟨ha, hp⟩ := hon
        simp only at ha hp
        subst ha
        subst hp
        simp only [execLoop, h1, h2]
        by_cases hd : a1 = "done"
        · simp [hd]
        · by_cases hf : a1 = "failed"
          · simp [hd, hf]
          · simp only [hd, hf, if_false]
            rw [executeAction_congr a1 p1 r1 r2 g1 g2, formatAction_congr a1 p1 r1 r2 g1 g2, hb]
            exact ih (steps + 1)
              (h ++ [if (executeAction ⟨a1, p1, r2, g2⟩ (env2.backend (steps + 1))).2 then
                formatAction ⟨a1, p1, r2, g2⟩ else "error"])
              (c ++ [.screenshot] ++ (executeAction ⟨a1, p1, r2, g2⟩ (env2.backend (steps + 1))).1)
              (s ++ [1500]) cf df

/-! ## Claim theorems -/

/-- C2: when the screen capture fails during a step, the loop retries from
the same logical state: the history (logical progress) and the pending
backend-gesture trace are unchanged, no oracle call happens, the loop pauses
the fixed 2000 ms delay, and the iteration still consumes one unit of the
step budget (the fuel `maxSteps - steps` drops by one because the counter was
already incremented to `steps + 1`). -/
theorem captureFail_retries_same_logical_step (cfg : TaskConfig) (env : Env)
    (fuel steps : Nat) (history : List String) (calls : List BackendCall)
    (sleeps : List Nat) (capF decF : Nat)
    (hout : env.outcome (steps + 1) = .captureFail) :
    execLoop cfg env (fuel + 1) steps history calls sleeps capF decF =
      execLoop cfg env fuel (steps + 1) history (calls ++ [.screenshot])
        (sleeps ++ [2000]) (capF + 1) decF := by
  simp only [execLoop, hout]

/-- Concrete environment for the C2 witness: every capture fails. -/
def envCaptureW : Env :=
  { launchOk := true, launchErrMsg := "", outcome := fun _ => .captureFail,
    backend := fun _ _ => true }

/-- Concrete config for the C2 witness. -/
def cfgCaptureW : TaskConfig := { bundleId := none, task := "t", maxSteps := 3 }

theorem captureFail_retries_same_logical_step_witness :
    envCaptureW.outcome 1 = .captureFail ∧
    execLoop cfgCaptureW envCaptureW 3 0 ["ready"] [] [1000] 0 0 =
      execLoop cfgCaptureW envCaptureW 2 1 ["ready"] [.screenshot] [1000, 2000] 1 0 :=
  ⟨rfl, captureFail_retries_same_logical_step cfgCaptureW envCaptureW 2 0 ["ready"]
    [] [1000] 0 0 rfl⟩

/-- C5: the translator applies the documented defaults for absent params:
`tap` dispatches at (50,50), `swipe` from (50,50) to (50,20), `eraseText`
erases 50 chars, `pressKey` presses "enter", `wait` waits 3000 ms. -/
theorem translator_defaults (rs : String) (pg : Int) (backend : BackendCall → Bool) :
    (executeAction { action := "tap", params := none, reasoning := rs, progress := pg }
      backend).1 = [.tap 50 50] ∧
    (executeAction { action := "swipe", params := none, reasoning := rs, progress := pg }
      backend).1 = [.swipe 50 50 50 20] ∧
    (executeAction { action := "eraseText", params := none, reasoning := rs, progress := pg }
      backend).1 = [.eraseText 50] ∧
    (executeAction { action := "pressKey", params := none, reasoning := rs, progress := pg }
      backend).1 = [.pressKey "enter"] ∧
    (executeAction { action := "wait", params := none, reasoning := rs, progress := pg }
      backend).1 = [.waitForAnimation 3000] :=
  ⟨rfl, rfl, rfl, rfl, rfl⟩

/-- C7: for a `back` intent whose backend `back()` call fails, the translator
issues exactly one substitute gesture — the iOS edge swipe from the left
screen edge `"1%, 50%"` to `"80%, 50%"` — in the same step, and does not call
`back()` a second time (it occurs exactly once in the trace). -/
theorem back_fallback_single_gesture (d : AgentDecision) (backend : BackendCall → Bool)
    (ha : d.action = "back") (hfail : backend .back = false) :
    executeAction d backend = ([.back, iosBackGestureCall], backend iosBackGestureCall) ∧
    iosBackGestureCall = .swipe 1 50 80 50 ∧
    (executeAction d backend).1.count .back = 1 := by
  obtain ⟨a, p, r, g⟩ := d
  have ha' : a = "back" := ha
  subst ha'
  refine ⟨?_, rfl, ?_⟩
  · simp [executeAction, hfail]
  · simp [executeAction, hfail]
    decide

/-- Backend used in the C7 witness: only `back()` fails. -/
def backendBackFailW : BackendCall → Bool := fun c => !(c == .back)

theorem back_fallback_single_gesture_witness :
    executeAction { action := "back", params := none, reasoning := "", progress := 0 }
      backendBackFailW = ([.back, iosBackGestureCall], backendBackFailW iosBackGestureCall) ∧
    iosBackGestureCall = .swipe 1 50 80 50 ∧
    (executeAction { action := "back", params := none, reasoning := "", progress := 0 }
      backendBackFailW).1.count .back = 1 :=
  back_fallback_single_gesture
    { action := "back", params := none, reasoning := "", progress := 0 }
    backendBackFailW rfl (by decide)

/-- C8: an intent whose kind is outside the closed vocabulary of the translator
performs no backend call and does not throw: the step completes normally. -/
theorem unknown_action_noop (d : AgentDecision) (backend : BackendCall → Bool)
    (h : d.action ∉ recognizedActions) :
    executeAction d backend = ([], true) := by
  simp only [recognizedActions, List.mem_cons, List.not_mem_nil, or_false, not_or] at h
  obtain ⟨h1, h2, h3, h4, h5, h6, h7, h8, h9, h10, h11, h12, h13, h14, h15⟩ := h
  simp [executeAction, h1, h2, h3, h4, h5, h6, h7, h8, h9, h10, h11, h12, h13, h14, h15]

theorem unknown_action_noop_witness :
    executeAction { action := "frobnicate", params := none, reasoning := "", progress := 0 }
      (fun _ => true) = ([], true) :=
  unknown_action_noop
    { action := "frobnicate", params := none, reasoning := "", progress := 0 }
    (fun _ => true) (by decide)

/-- C10: a decision with absent `params` is summarized in history as the bare
action kind: a `tap` executed with defaulted coordinates is recorded as
`"tap"`, not `"tap(50,50)"`, such an entry does not match the `tap(` prefix,
and consequently it never contributes to the milder-hint rule of the detector
(while genuine `tap(x,y)` entries do). -/
theorem missing_params_bare_summary (d : AgentDecision) (h : d.params = none) :
    formatAction d = d.action ∧
    formatAction { action := "tap", params := none, reasoning := "", progress := 0 } = "tap" ∧
    strStartsWith "tap" "tap(" = false ∧
    detectStuckPattern ["tap", "scroll", "tap"] = none ∧
    detectStuckPattern ["tap(50,50)", "scroll", "tap(50,50)"] = some tapNote := by
  refine ⟨?_, rfl, by decide, by decide, by decide⟩
  obtain ⟨a, p, r, g⟩ := d
  have h' : p = none := h
  subst h'
  rfl

theorem missing_params_bare_summary_witness :
    formatAction { action := "tap", params := none, reasoning := "x", progress := 5 } = "tap" :=
  (missing_params_bare_summary
    { action := "tap", params := none, reasoning := "x", progress := 5 } rfl).1

/-- C4: the stuck-pattern detector is a pure function of the trailing 3
history entries: `none` below 3 entries; the strong hint (naming the repeated
action and containing "3 times") when the trailing three are identical; the
milder tap-adjustment hint when at least two of the trailing three match the
`tap(` prefix; `none` otherwise. -/
theorem detectStuckPattern_characterization (history : List String) :
    (history.length < 3 → detectStuckPattern history = none) ∧
    (∀ a b c, 3 ≤ history.length → history.drop (history.length - 3) = [a, b, c] →
      ((b = a ∧ c = a) → detectStuckPattern history = some (stuckWarning a)) ∧
      (¬(b = a ∧ c = a) →
        2 ≤ ([a, b, c].filter (fun x => strStartsWith x "tap(")).length →
        detectStuckPattern history = some tapNote) ∧
      (¬(b = a ∧ c = a) →
        ([a, b, c].filter (fun x => strStartsWith x "tap(")).length < 2 →
        detectStuckPattern history = none)) ∧
    (detectStuckPattern ["tap(50,50)", "tap(50,50)", "tap(50,50)"] =
        some (stuckWarning "tap(50,50)") ∧
      strContains (stuckWarning "tap(50,50)") "tap(50,50)" = true ∧
      strContains (stuckWarning "tap(50,50)") "3 times" = true) := by
  refine ⟨?_, ?_, by decide, by decide, by decide⟩
  · intro hlt
    simp [detectStuckPattern, hlt]
  · intro a b c hlen hdrop
    refine ⟨?_, ?_, ?_⟩
    · rintro ⟨hb, hc⟩
      subst hb
      subst hc
      simp only [detectStuckPattern]
      rw [if_neg (by omega), hdrop]
      simp
    · intro hne htap
      simp only [detectStuckPattern]
      rw [if_neg (by omega), hdrop]
      rw [if_neg ?hcond, if_pos htap]
      case hcond =>
        simp only [List.headD_cons, List.all_cons, List.all_nil, Bool.and_true,
          Bool.and_eq_true, decide_eq_true_eq]
        intro hall
        exact hne ⟨hall.2.1, hall.2.2⟩
    · intro hne htap
      simp only [detectStuckPattern]
      rw [if_neg (by omega), hdrop]
      rw [if_neg ?hcond2, if_neg (by omega)]
      case hcond2 =>
        simp only [List.headD_cons, List.all_cons, List.all_nil, Bool.and_true,
          Bool.and_eq_true, decide_eq_true_eq]
        intro hall
        exact hne ⟨hall.2.1, hall.2.2⟩

theorem detectStuckPattern_characterization_witness :
    detectStuckPattern ["tap(10,10)", "scroll", "tap(20,20)"] = some tapNote :=
  (((detectStuckPattern_characterization ["tap(10,10)", "scroll", "tap(20,20)"]).2.1
      "tap(10,10)" "scroll" "tap(20,20)" (by decide) (by decide)).2.1
    (by decide) (by decide))

/-- C1: for every run with a positive step budget (the config contract), the
final `steps` lies between 0 and `maxSteps`; it is 0 exactly when the initial
app launch fails; if no `done`/`failed` decision arrives within `maxSteps`
iterations the run ends with `success = false`, the fixed timeout reason and
`steps = maxSteps`; and when the first terminal decision arrives at counter
value `t`, the run ends with `steps = t` — the counter having advanced by
exactly one per loop iteration. -/
theorem execute_steps_bounds (cfg : TaskConfig) (env : Env)
    (hpos : 0 < cfg.maxSteps) :
    (execute cfg env).steps ≤ cfg.maxSteps ∧
    ((execute cfg env).steps = 0 ↔ truthy cfg.bundleId = true ∧ env.launchOk = false) ∧
    ((truthy cfg.bundleId = true → env.launchOk = true) →
      (∀ j, 1 ≤ j → j ≤ cfg.maxSteps → isTerminal (env.outcome j) = false) →
      (execute cfg env).success = false ∧ (execute cfg env).reason = timeoutReason ∧
        (execute cfg env).steps = cfg.maxSteps) ∧
    (∀ t, (truthy cfg.bundleId = true → env.launchOk = true) →
      1 ≤ t → t ≤ cfg.maxSteps →
      (∀ j, 1 ≤ j → j < t → isTerminal (env.outcome j) = false) →
      isTerminal (env.outcome t) = true →
      (execute cfg env).steps = t) := by
  cases hbid : truthy cfg.bundleId with
  | false =>
    have hrec : execute cfg env = execLoop cfg env cfg.maxSteps 0 ["ready"] [] [1000] 0 0 := by
      simp [execute, hbid]
    refine ⟨?_, ?_, ?_, ?_⟩
    · rw [hrec]
      have := execLoop_steps_le cfg env cfg.maxSteps 0 ["ready"] [] [1000] 0 0
      omega
    · rw [hrec]
      have := execLoop_steps_pos cfg env cfg.maxSteps 0 ["ready"] [] [1000] 0 0 hpos
      exact iff_of_false (by omega) (by simp)
    · intro _ hnt
      rw [hrec]
      have hex := execLoop_all_nonterminal cfg env cfg.maxSteps 0 ["ready"] [] [1000] 0 0
        (fun j hj1 hj2 => hnt j (by omega) (by omega))
      obtain ⟨h1, h2, h3⟩ :=
        execLoop_timeout_char cfg env cfg.maxSteps 0 ["ready"] [] [1000] 0 0 hex
      exact ⟨h1, h2, by omega⟩
    · intro t _ ht1 ht2 hnt ht
      rw [hrec]
      exact execLoop_first_terminal cfg env cfg.maxSteps 0 ["ready"] [] [1000] 0 0 t
        (by omega) (by omega) (fun j hj1 hj2 => hnt j (by omega) hj2) ht
  | true =>
    cases hl : env.launchOk with
    | false =>
      have hrec : execute cfg env =
          { success := false, reason := env.launchErrMsg, steps := 0,
            history := [], calls := [.launch], sleeps := [],
            captureFails := 0, decideFails := 0, exitKind := .launchFailed } := by
        simp [execute, hbid, hl]
      refine ⟨?_, ?_, ?_, ?_⟩
      · rw [hrec]
        exact Nat.zero_le _
      · rw [hrec]
        simp
      · intro hlaunch _
        exact absurd (hlaunch rfl) (by simp)
      · intro t hlaunch _ _ _ _
        exact absurd (hlaunch rfl) (by simp)
    | true =>
      have hrec : execute cfg env =
          execLoop cfg env cfg.maxSteps 0 ["launched"] [.launch] [3000] 0 0 := by
        simp [execute, hbid, hl]
      refine ⟨?_, ?_, ?_, ?_⟩
      · rw [hrec]
        have := execLoop_steps_le cfg env cfg.maxSteps 0 ["launched"] [.launch] [3000] 0 0
        omega
      · rw [hrec]
        have := execLoop_steps_pos cfg env cfg.maxSteps 0 ["launched"] [.launch] [3000] 0 0 hpos
        exact iff_of_false (by omega) (by simp)
      · intro _ hnt
        rw [hrec]
        have hex := execLoop_all_nonterminal cfg env cfg.maxSteps 0 ["launched"] [.launch]
          [3000] 0 0 (fun j hj1 hj2 => hnt j (by omega) (by omega))
        obtain ⟨h1, h2, h3⟩ :=
          execLoop_timeout_char cfg env cfg.maxSteps 0 ["launched"] [.launch] [3000] 0 0 hex
        exact ⟨h1, h2, by omega⟩
      · intro t _ ht1 ht2 hnt ht
        rw [hrec]
        exact execLoop_first_terminal cfg env cfg.maxSteps 0 ["launched"] [.launch] [3000] 0 0 t
          (by omega) (by omega) (fun j hj1 hj2 => hnt j (by omega) hj2) ht

/-- Concrete run for the C1 witness: launch succeeds and the oracle always
answers `scroll`, so the budget of 2 steps runs out. -/
def envTimeoutW : Env :=
  { launchOk := true, launchErrMsg := "",
    outcome := fun _ => .decided
      { action := "scroll", params := none, reasoning := "r", progress := 10 },
    backend := fun _ _ => true }

/-- Concrete config for the C1 witness. -/
def cfgTimeoutW : TaskConfig :=
  { bundleId := some "com.example.app", task := "demo", maxSteps := 2 }

theorem execute_steps_bounds_witness :
    (execute cfgTimeoutW envTimeoutW).success = false ∧
    (execute cfgTimeoutW envTimeoutW).reason = timeoutReason ∧
    (execute cfgTimeoutW envTimeoutW).steps = 2 :=
  (execute_steps_bounds cfgTimeoutW envTimeoutW (by decide)).2.2.1
    (fun _ => rfl) (fun j _ _ => rfl)

/-- Concrete run refuting C3 as stated: with no app id and a `done` decision
at step 1, the run ends with `steps = 1`, no capture/decision failures, and
zero history entries beyond the initial `"ready"` marker. -/
def envDoneC3 : Env :=
  { launchOk := true, launchErrMsg := "",
    outcome := fun _ => .decided
      { action := "done", params := none, reasoning := "finished", progress := 100 },
    backend := fun _ _ => true }

/-- Concrete config for the C3 counterexample. -/
def cfgDoneC3 : TaskConfig := { bundleId := none, task := "t", maxSteps := 1 }

/-- C3 counterexample: at loop exit via a `done` decision the number of
history entries after the initial marker (0) differs from
`steps - captureFails - decideFails` (1): the terminal iteration consumes a
step but appends no entry. -/
theorem history_step_mismatch_on_done :
    (execute cfgDoneC3 envDoneC3).steps = 1 ∧
    (execute cfgDoneC3 envDoneC3).captureFails = 0 ∧
    (execute cfgDoneC3 envDoneC3).decideFails = 0 ∧
    (execute cfgDoneC3 envDoneC3).history = ["ready"] ∧
    (execute cfgDoneC3 envDoneC3).history.length - 1 ≠
      (execute cfgDoneC3 envDoneC3).steps - (execute cfgDoneC3 envDoneC3).captureFails -
        (execute cfgDoneC3 envDoneC3).decideFails := by
  decide

/-- C3 as amended: the history (which contains 1 initial marker entry) never
exceeds `steps + 1` entries; a launch failure ends with empty history,
`steps = 0` and no failures; at a timeout exit the entries after the marker
equal `steps - captureFails - decideFails` exactly; at an exit via a
`done`/`failed` decision they equal `steps - 1 - captureFails - decideFails`,
the terminal iteration having consumed a step without appending an entry
(stated additively to avoid truncated subtraction). -/
theorem history_step_accounting (cfg : TaskConfig) (env : Env) :
    ((execute cfg env).exitKind = .launchFailed →
      (execute cfg env).history = [] ∧ (execute cfg env).steps = 0 ∧
      (execute cfg env).captureFails = 0 ∧ (execute cfg env).decideFails = 0) ∧
    ((execute cfg env).exitKind = .timeout →
      (execute cfg env).history.length + (execute cfg env).captureFails +
        (execute cfg env).decideFails = (execute cfg env).steps + 1) ∧
    (((execute cfg env).exitKind = .doneDecision ∨
        (execute cfg env).exitKind = .failedDecision) →
      (execute cfg env).history.length + (execute cfg env).captureFails +
        (execute cfg env).decideFails = (execute cfg env).steps) ∧
    ((execute cfg env).history.length ≤ (execute cfg env).steps + 1) := by
  cases hbid : truthy cfg.bundleId with
  | false =>
    have hrec : execute cfg env = execLoop cfg env cfg.maxSteps 0 ["ready"] [] [1000] 0 0 := by
      simp [execute, hbid]
    obtain ⟨hacct1, hacct2⟩ :=
      execLoop_history_acct cfg env cfg.maxSteps 0 ["ready"] [] [1000] 0 0
    rw [hrec]
    refine ⟨?_, ?_, ?_, ?_⟩
    · intro hex
      exact absurd hex (execLoop_ne_launchFailed cfg env cfg.maxSteps 0 ["ready"] [] [1000] 0 0)
    · intro hex
      have := hacct1 hex
      simp only [List.length_cons, List.length_nil] at this
      omega
    · intro hex
      have := hacct2 hex
      simp only [List.length_cons, List.length_nil] at this
      omega
    · cases hex : (execLoop cfg env cfg.maxSteps 0 ["ready"] [] [1000] 0 0).exitKind with
      | launchFailed =>
        exact absurd hex
          (execLoop_ne_launchFailed cfg env cfg.maxSteps 0 ["ready"] [] [1000] 0 0)
      | doneDecision =>
        have := hacct2 (Or.inl hex)
        simp only [List.length_cons, List.length_nil] at this
        omega
      | failedDecision =>
        have := hacct2 (Or.inr hex)
        simp only [List.length_cons, List.length_nil] at this
        omega
      | timeout =>
        have := hacct1 hex
        simp only [List.length_cons, List.length_nil] at this
        omega
  | true =>
    cases hl : env.launchOk with
    | false =>
      have hrec : execute cfg env =
          { success := false, reason := env.launchErrMsg, steps := 0,
            history := [], calls := [.launch], sleeps := [],
            captureFails := 0, decideFails := 0, exitKind := .launchFailed } := by
        simp [execute, hbid, hl]
      rw [hrec]
      refine ⟨fun _ => ⟨rfl, rfl, rfl, rfl⟩, ?_, ?_, by simp⟩
      · intro hex
        cases hex
      · intro hex
        rcases hex with hex | hex <;> cases hex
    | true =>
      have hrec : execute cfg env =
          execLoop cfg env cfg.maxSteps 0 ["launched"] [.launch] [3000] 0 0 := by
        simp [execute, hbid, hl]
      obtain ⟨hacct1, hacct2⟩ :=
        execLoop_history_acct cfg env cfg.maxSteps 0 ["launched"] [.launch] [3000] 0 0
      rw [hrec]
      refine ⟨?_, ?_, ?_, ?_⟩
      · intro hex
        exact absurd hex
          (execLoop_ne_launchFailed cfg env cfg.maxSteps 0 ["launched"] [.launch] [3000] 0 0)
      · intro hex
        have := hacct1 hex
        simp only [List.length_cons, List.length_nil] at this
        omega
      · intro hex
        have := hacct2 hex
        simp only [List.length_cons, List.length_nil] at this
        omega
      · cases hex : (execLoop cfg env cfg.maxSteps 0 ["launched"] [.launch] [3000] 0 0).exitKind with
        | launchFailed =>
          exact absurd hex
            (execLoop_ne_launchFailed cfg env cfg.maxSteps 0 ["launched"] [.launch] [3000] 0 0)
        | doneDecision =>
          have := hacct2 (Or.inl hex)
          simp only [List.length_cons, List.length_nil] at this
          omega
        | failedDecision =>
          have := hacct2 (Or.inr hex)
          simp only [List.length_cons, List.length_nil] at this
          omega
        | timeout =>
          have := hacct1 hex
          simp only [List.length_cons, List.length_nil] at this
          omega

theorem history_step_accounting_witness :
    (execute cfgDoneC3 envDoneC3).history.length + (execute cfgDoneC3 envDoneC3).captureFails +
      (execute cfgDoneC3 envDoneC3).decideFails = (execute cfgDoneC3 envDoneC3).steps :=
  (history_step_accounting cfgDoneC3 envDoneC3).2.2.1 (Or.inl rfl)

/-- C6: an action-dispatch failure is never fatal: the iteration appends the
`"error"` marker to history and the loop simply continues with the remaining
budget (first conjunct — the run equals its own continuation, so no exception
escapes through this path); an early exit with `exitKind = launchFailed`
happens exactly when an app id is configured and the launch fails (second
conjunct); and a timeout exit always carries the full budget
`steps = maxSteps`, so the only way to stop with fewer steps is a terminal
decision or the fatal launch path (third conjunct). -/
theorem dispatch_failure_resilient (cfg : TaskConfig) (env : Env) :
    (∀ fuel steps history calls sleeps capF decF (d : AgentDecision),
      env.outcome (steps + 1) = .decided d →
      d.action ≠ "done" → d.action ≠ "failed" →
      (executeAction d (env.backend (steps + 1))).2 = false →
      execLoop cfg env (fuel + 1) steps history calls sleeps capF decF =
        execLoop cfg env fuel (steps + 1) (history ++ ["error"])
          (calls ++ [.screenshot] ++ (executeAction d (env.backend (steps + 1))).1)
          (sleeps ++ [1500]) capF decF) ∧
    ((execute cfg env).exitKind = .launchFailed ↔
      truthy cfg.bundleId = true ∧ env.launchOk = false) ∧
    ((execute cfg env).exitKind = .timeout → (execute cfg env).steps = cfg.maxSteps) := by
  refine ⟨?_, ?_, ?_⟩
  · intro fuel steps h c s cf df d hout hd hf hfail
    simp only [execLoop, hout, if_neg hd, if_neg hf, hfail]
    simp
  · cases hbid : truthy cfg.bundleId with
    | false =>
      have hrec : execute cfg env =
          execLoop cfg env cfg.maxSteps 0 ["ready"] [] [1000] 0 0 := by
        simp [execute, hbid]
      rw [hrec]
      exact iff_of_false
        (execLoop_ne_launchFailed cfg env cfg.maxSteps 0 ["ready"] [] [1000] 0 0)
        (by simp)
    | true =>
      cases hl : env.launchOk with
      | false =>
        have hrec : execute cfg env =
            { success := false, reason := env.launchErrMsg, steps := 0,
              history := [], calls := [.launch], sleeps := [],
              captureFails := 0, decideFails := 0, exitKind := .launchFailed } := by
          simp [execute, hbid, hl]
        rw [hrec]
        exact iff_of_true rfl (by simp)
      | true =>
        have hrec : execute cfg env =
            execLoop cfg env cfg.maxSteps 0 ["launched"] [.launch] [3000] 0 0 := by
          simp [execute, hbid, hl]
        rw [hrec]
        exact iff_of_false
          (execLoop_ne_launchFailed cfg env cfg.maxSteps 0 ["launched"] [.launch] [3000] 0 0)
          (by simp)
  · cases hbid : truthy cfg.bundleId with
    | false =>
      have hrec : execute cfg env =
          execLoop cfg env cfg.maxSteps 0 ["ready"] [] [1000] 0 0 := by
        simp [execute, hbid]
      rw [hrec]
      intro hex
      have := (execLoop_timeout_char cfg env cfg.maxSteps 0 ["ready"] [] [1000] 0 0 hex).2.2
      omega
    | true =>
      cases hl : env.launchOk with
      | false =>
        have hrec : execute cfg env =
            { success := false, reason := env.launchErrMsg, steps := 0,
              history := [], calls := [.launch], sleeps := [],
              captureFails := 0, decideFails := 0, exitKind := .launchFailed } := by
          simp [execute, hbid, hl]
        rw [hrec]
        intro hex
        cases hex
      | true =>
        have hrec : execute cfg env =
            execLoop cfg env cfg.maxSteps 0 ["launched"] [.launch] [3000] 0 0 := by
          simp [execute, hbid, hl]
        rw [hrec]
        intro hex
        have := (execLoop_timeout_char cfg env cfg.maxSteps 0
          ["launched"] [.launch] [3000] 0 0 hex).2.2
        omega

/-- Concrete run for the C6 witness: the oracle asks for a `tap` and every
backend call fails. -/
def envDispatchFailW : Env :=
  { launchOk := true, launchErrMsg := "",
    outcome := fun _ => .decided
      { action := "tap", params := none, reasoning := "r", progress := 0 },
    backend := fun _ _ => false }

/-- Concrete config for the C6 witness. -/
def cfgDispatchFailW : TaskConfig := { bundleId := none, task := "t", maxSteps := 2 }

theorem dispatch_failure_resilient_witness :
    execLoop cfgDispatchFailW envDispatchFailW 2 0 ["ready"] [] [1000] 0 0 =
      execLoop cfgDispatchFailW envDispatchFailW 1 1 ["ready", "error"]
        [.screenshot, .tap 50 50] [1000, 1500] 0 0 :=
  (dispatch_failure_resilient cfgDispatchFailW envDispatchFailW).1 1 0 ["ready"] [] [1000] 0 0
    { action := "tap", params := none, reasoning := "r", progress := 0 }
    rfl (by decide) (by decide) rfl

/-- C9: two runs whose oracle decisions differ only in the `reasoning` and
`progress` fields have identical control flow: the same backend-call trace,
the same number of steps, and the same success flag. -/
theorem rationale_progress_no_control_influence (cfg : TaskConfig) (env1 env2 : Env)
    (hl : env1.launchOk = env2.launchOk)
    (ho : ∀ n, outcomeEquiv (env1.outcome n) (env2.outcome n))
    (hb : env1.backend = env2.backend) :
    (execute cfg env1).calls = (execute cfg env2).calls ∧
    (execute cfg env1).steps = (execute cfg env2).steps ∧
    (execute cfg env1).success = (execute cfg env2).success := by
  cases hbid : truthy cfg.bundleId with
  | false =>
    have hrec1 : execute cfg env1 =
        execLoop cfg env1 cfg.maxSteps 0 ["ready"] [] [1000] 0 0 := by
      simp [execute, hbid]
    have hrec2 : execute cfg env2 =
        execLoop cfg env2 cfg.maxSteps 0 ["ready"] [] [1000] 0 0 := by
      simp [execute, hbid]
    rw [hrec1, hrec2]
    obtain ⟨h1, h2, h3, h4⟩ :=
      execLoop_equiv cfg env1 env2 ho hb cfg.maxSteps 0 ["ready"] [] [1000] 0 0
    exact ⟨h4, h2, h1⟩
  | true =>
    cases hl1 : env1.launchOk with
    | false =>
      have hl2 : env2.launchOk = false := by rw [← hl, hl1]
      have hrec1 : execute cfg env1 =
          { success := false, reason := env1.launchErrMsg, steps := 0,
            history := [], calls := [.launch], sleeps := [],
            captureFails := 0, decideFails := 0, exitKind := .launchFailed } := by
        simp [execute, hbid, hl1]
      have hrec2 : execute cfg env2 =
          { success := false, reason := env2.launchErrMsg, steps := 0,
            history := [], calls := [.launch], sleeps := [],
            captureFails := 0, decideFails := 0, exitKind := .launchFailed } := by
        simp [execute, hbid, hl2]
      rw [hrec1, hrec2]
      exact ⟨rfl, rfl, rfl⟩
    | true =>
      have hl2 : env2.launchOk = true := by rw [← hl, hl1]
      have hrec1 : execute cfg env1 =
          execLoop cfg env1 cfg.maxSteps 0 ["launched"] [.launch] [3000] 0 0 := by
        simp [execute, hbid, hl1]
      have hrec2 : execute cfg env2 =
          execLoop cfg env2 cfg.maxSteps 0 ["launched"] [.launch] [3000] 0 0 := by
        simp [execute, hbid, hl2]
      rw [hrec1, hrec2]
      obtain ⟨h1, h2, h3, h4⟩ :=
        execLoop_equiv cfg env1 env2 ho hb cfg.maxSteps 0 ["launched"] [.launch] [3000] 0 0
      exact ⟨h4, h2, h1⟩

/-- First environment for the C9 witness: a `done` decision with one
rationale and progress estimate. -/
def envReasonA : Env :=
  { launchOk := true, launchErrMsg := "",
    outcome := fun _ => .decided
      { action := "done", params := none, reasoning := "saw the confirmation", progress := 100 },
    backend := fun _ _ => true }

/-- Second environment for the C9 witness: the same decisions except for the
`reasoning` and `progress` fields. -/
def envReasonB : Env :=
  { launchOk := true, launchErrMsg := "",
    outcome := fun _ => .decided
      { action := "done", params := none, reasoning := "different words", progress := 7 },
    backend := fun _ _ => true }

/-- Concrete config for the C9 witness. -/
def cfgReasonW : TaskConfig := { bundleId := none, task := "t", maxSteps := 2 }

theorem rationale_progress_no_control_influence_witness :
    (execute cfgReasonW envReasonA).calls = (execute cfgReasonW envReasonB).calls ∧
    (execute cfgReasonW envReasonA).steps = (execute cfgReasonW envReasonB).steps ∧
    (execute cfgReasonW envReasonA).success = (execute cfgReasonW envReasonB).success :=
  rationale_progress_no_control_influence cfgReasonW envReasonA envReasonB rfl
    (fun _ => ⟨rfl, rfl⟩) rfl

end MobileUse
